import Mathlib

/-!
Verification of the covid19-api Country aggregate: a shallow embedding of
the entity sanitize/validate pipeline, the country and province
repositories, and the three service use cases (create, full edit,
single-province update) from `src/main.go`, together with theorems about
the properties of that code.

Conventions of the embedding:
* Go `int64` counters become `Int`; `time.Time` becomes an abstract `Nat` tick.
* A Go slice that distinguishes `nil` from an empty allocated slice is
  modelled as `Option (List _)` (`none` = nil slice).
* `error` return values become `Option String` (`some msg` = non-nil error).
* UUID generation (`uuid.NewV4().String()`) is modelled by an injected
  generator `ids : Nat → String`, consumed in program order.
* The SQL store is a pair of row lists; server-side statement failures are
  injected through explicit oracles, client-side query-builder failures
  (squirrel `ToSql`) are deterministic and modelled directly.
-/

/-- Character class of Go `unicode.IsSpace`, which `strings.TrimSpace` uses:
ASCII whitespace, NEL, NBSP and the Unicode White_Space code points. -/
def goIsSpace (c : Char) : Bool :=
  let n := c.toNat
  decide ((9 ≤ n ∧ n ≤ 13) ∨ n = 32 ∨ n = 133 ∨ n = 160 ∨ n = 5760 ∨
    (8192 ≤ n ∧ n ≤ 8202) ∨ n = 8232 ∨ n = 8233 ∨ n = 8239 ∨ n = 8287 ∨ n = 12288)

/-- Trim `goIsSpace` characters from both ends of a character list, as
Go `strings.TrimSpace` does on the name field. -/
def trimChars (l : List Char) : List Char :=
  ((l.dropWhile goIsSpace).reverse.dropWhile goIsSpace).reverse

/-- Go `strings.TrimSpace` on strings. -/
def goTrimSpace (s : String) : String :=
  String.mk (trimChars s.toList)

/-- Expansion of one character under Go `html.EscapeString`: the five
metacharacters ampersand (38), apostrophe (39), less-than (60),
greater-than (62) and double quote (34) expand to entities, everything
else is kept. -/
def escapeChar (c : Char) : List Char :=
  if c.toNat = 38 then "&amp;".toList
  else if c.toNat = 39 then "&#39;".toList
  else if c.toNat = 60 then "&lt;".toList
  else if c.toNat = 62 then "&gt;".toList
  else if c.toNat = 34 then "&#34;".toList
  else [c]

/-- Escape every character of a list, as Go `html.EscapeString` does. -/
def escapeChars : List Char → List Char
  | [] => []
  | c :: cs => escapeChar c ++ escapeChars cs

/-- Go `html.EscapeString` on strings. -/
def htmlEscapeString (s : String) : String :=
  String.mk (escapeChars s.toList)

/-- The name transformation of `Country.Prepare` / `Province.Prepare` in
`src/main.go`: `html.EscapeString(strings.TrimSpace(name))`. -/
def sanitizeName (s : String) : String :=
  htmlEscapeString (goTrimSpace s)

/-- District record (`src/main.go` lines 261-272); defined but never
persisted in the current scope. -/
structure District where
  id : String
  name : String
  total : Int
  newCase : Int
  treated : Int
  decoveringCase : Int
  testCase : Int
  dead : Int
  negativeTest : Int
  updatedAt : Nat
deriving DecidableEq, Repr

/-- Province record (`src/main.go` lines 292-304). `districts` is a Go
slice whose nil-ness no claim depends on, kept as a plain list. -/
structure Province where
  id : String
  name : String
  total : Int
  newCase : Int
  treated : Int
  decoveringCase : Int
  testCase : Int
  dead : Int
  negativeTest : Int
  districts : List District
  updatedAt : Nat
deriving DecidableEq, Repr

/-- Country record (`src/main.go` lines 323-335). `provinces` is a Go
slice whose nil-ness is observable (JSON `null` vs `[]`), hence `Option`. -/
structure Country where
  id : String
  name : String
  total : Int
  newCase : Int
  treated : Int
  decoveringCase : Int
  testCase : Int
  negativeTest : Int
  dead : Int
  provinces : Option (List Province)
  updatedAt : Nat
deriving DecidableEq, Repr

/-- Iterating a Go slice: a nil slice iterates like an empty one. -/
def provList : Option (List Province) → List Province
  | none => []
  | some l => l

/-- `Province.Validate` (`src/main.go` lines 316-321): `some msg` is the
returned error. -/
def Province.validate (p : Province) : Option String :=
  if p.name = "" then some "province: name is required" else none

/-- `Country.Validate` (`src/main.go` lines 347-352). -/
def Country.validate (c : Country) : Option String :=
  if c.name = "" then some "country: name is required" else none

/-- One row of the `country` table, with the columns written by
`countryRepo.Save` (`src/main.go` lines 424-448). -/
structure CountryRow where
  id : String
  name : String
  total : Int
  newCase : Int
  treated : Int
  decoveringCase : Int
  testCase : Int
  dead : Int
  negativeTest : Int
  updatedAt : Nat
deriving DecidableEq, Repr

/-- One row of the `provinces` table, with the columns written by the
bulk insert of `countryRepo.Save` (`src/main.go` lines 450-474),
including the `country_id` foreign key. -/
structure ProvinceRow where
  id : String
  name : String
  total : Int
  newCase : Int
  treated : Int
  decoveringCase : Int
  testCase : Int
  dead : Int
  negativeTest : Int
  countryId : String
  updatedAt : Nat
deriving DecidableEq, Repr

/-- The relational store: the two tables the core touches. -/
structure DB where
  countries : List CountryRow
  provinces : List ProvinceRow
deriving DecidableEq, Repr

/-- The country row written by the insert of `countryRepo.Save`. -/
def countryRowOf (c : Country) : CountryRow :=
  { id := c.id, name := c.name, total := c.total, newCase := c.newCase,
    treated := c.treated, decoveringCase := c.decoveringCase,
    testCase := c.testCase, dead := c.dead, negativeTest := c.negativeTest,
    updatedAt := c.updatedAt }

/-- A province row of the bulk insert of `countryRepo.Save`: the parent
country identifier is written as the `country_id` column. -/
def provinceRowOf (cid : String) (p : Province) : ProvinceRow :=
  { id := p.id, name := p.name, total := p.total, newCase := p.newCase,
    treated := p.treated, decoveringCase := p.decoveringCase,
    testCase := p.testCase, dead := p.dead, negativeTest := p.negativeTest,
    countryId := cid, updatedAt := p.updatedAt }

/-- The global not-found sentinel `errNotFound` (`src/main.go` line 37). -/
def errNotFound : String := "Error: No data found"

/-- The client-side error squirrel v1.5.0 `InsertBuilder.ToSql` returns
when the statement has no value rows and no select clause. -/
def emptyInsertErr : String :=
  "insert statements must have at least one set of values or select clause"

/-- Injected server-side outcomes for the statements of one
`countryRepo.Save` call: `some msg` makes the corresponding step fail. -/
structure SaveOracle where
  beginErr : Option String
  countryInsertErr : Option String
  provinceInsertErr : Option String
deriving DecidableEq, Repr

/-- A `SaveOracle` in which storage is healthy. -/
def saveOk : SaveOracle := { beginErr := none, countryInsertErr := none, provinceInsertErr := none }

/-- `countryRepo.Save` (`src/main.go` lines 408-481). The Go body shadows
the outer `err` inside each `if _, err := ...` statement, so the deferred
commit/rollback closure always observes `err == nil` once `BeginTx`
succeeded, and therefore always attempts `tx.Commit()`:
* a server-side statement failure leaves the transaction aborted, so the
  commit discards every pending write (the store sees no change);
* with zero provinces the bulk insert fails client-side in squirrel
  `ToSql` (no SQL is sent), the transaction is still healthy, and the
  commit persists the already-inserted country row while the error is
  returned to the caller. -/
def countryRepoSave (o : SaveOracle) (db : DB) (c : Country) : DB × Option String :=
  match o.beginErr with
  | some e => (db, some e)
  | none =>
    match o.countryInsertErr with
    | some e => (db, some e)
    | none =>
      let rows := (provList c.provinces).map (provinceRowOf c.id)
      if rows.isEmpty then
        ({ db with countries := db.countries ++ [countryRowOf c] }, some emptyInsertErr)
      else
        match o.provinceInsertErr with
        | some e => (db, some e)
        | none =>
          ({ countries := db.countries ++ [countryRowOf c],
             provinces := db.provinces ++ rows }, none)

/-- The row rewrite of `countryRepo.Update` (`src/main.go` lines 482-500):
`UPDATE country SET name, total, new_case, treated, decovering_case,
test_case, dead, negative_case, updated_at WHERE id = c.ID`. The `id`
column is never written. -/
def countryUpdateRow (c : Country) (r : CountryRow) : CountryRow :=
  if r.id = c.id then
    { r with
      name := c.name
      total := c.total
      newCase := c.newCase
      treated := c.treated
      decoveringCase := c.decoveringCase
      testCase := c.testCase
      dead := c.dead
      negativeTest := c.negativeTest
      updatedAt := c.updatedAt }
  else r

/-- `countryRepo.Update`, non-transactional single statement; `o` injects a
server-side failure (in which case nothing is written). -/
def countryRepoUpdate (o : Option String) (db : DB) (c : Country) : DB × Option String :=
  match o with
  | some e => (db, some e)
  | none => ({ db with countries := db.countries.map (countryUpdateRow c) }, none)

/-- The row rewrite of `provinceRepo.Update` (`src/main.go` lines 626-643):
`UPDATE provinces SET name, total, treated, decovering_case, test_case,
dead, negative_case, updated_at WHERE id = p.ID`. Neither `new_case` nor
`country_id` nor `id` is among the SET columns. -/
def provinceUpdateRow (p : Province) (r : ProvinceRow) : ProvinceRow :=
  if r.id = p.id then
    { r with
      name := p.name
      total := p.total
      treated := p.treated
      decoveringCase := p.decoveringCase
      testCase := p.testCase
      dead := p.dead
      negativeTest := p.negativeTest
      updatedAt := p.updatedAt }
  else r

/-- `provinceRepo.Update`; `o` injects a server-side failure. -/
def provinceRepoUpdate (o : Option String) (db : DB) (p : Province) : DB × Option String :=
  match o with
  | some e => (db, some e)
  | none => ({ db with provinces := db.provinces.map (provinceUpdateRow p) }, none)

/-- `provinceRepo.Save` (`src/main.go` lines 623-625): returns nil without
touching the store. -/
def provinceRepoSave (db : DB) (p : Province) : DB × Option String :=
  (db, none)

/-- `provinceRepo.Delete` (`src/main.go` lines 644-646): returns nil
without touching the store. -/
def provinceRepoDelete (db : DB) (p : Province) : DB × Option String :=
  (db, none)

/-- `provinceRepo.GetByID` (`src/main.go` lines 647-649): returns
`(nil, nil)` for every input. -/
def provinceRepoGetByID (db : DB) (id : String) : Option Province × Option String :=
  (none, none)

/-- `provinceRepo.GetAll` (`src/main.go` lines 650-652): returns
`(nil, nil)` for every input. -/
def provinceRepoGetAll (db : DB) : Option (List Province) × Option String :=
  (none, none)

/-- The `ORDER BY total DESC` comparison used when fetching a country's
provinces. -/
def byTotalDesc (a b : ProvinceRow) : Prop := b.total ≤ a.total

instance : DecidableRel byTotalDesc := fun a b =>
  inferInstanceAs (Decidable (b.total ≤ a.total))

instance : IsTotal ProvinceRow byTotalDesc :=
  ⟨fun a b => (le_total b.total a.total).imp id id⟩

instance : IsTrans ProvinceRow byTotalDesc :=
  ⟨fun _ _ _ h1 h2 => le_trans h2 h1⟩

/-- A province value scanned back from a `provinces` row by
`countryRepo.GetByID` (`src/main.go` lines 586-601): the select list has
no `country_id` and no districts, so `districts` comes back empty. -/
def provinceOfRow (r : ProvinceRow) : Province :=
  { id := r.id, name := r.name, total := r.total, newCase := r.newCase,
    treated := r.treated, decoveringCase := r.decoveringCase,
    testCase := r.testCase, dead := r.dead, negativeTest := r.negativeTest,
    districts := [], updatedAt := r.updatedAt }

/-- `countryRepo.GetByID` (`src/main.go` lines 533-610): scans the country
row (normalizing `sql.ErrNoRows` to the `errNotFound` sentinel), then
fetches all province rows with matching `country_id` ordered by `total`
descending into a freshly allocated (never nil) collection. -/
def countryRepoGetByID (db : DB) (id : String) : Except String Country :=
  match db.countries.find? (fun r => r.id == id) with
  | none => .error errNotFound
  | some r =>
    let rows := List.insertionSort byTotalDesc (db.provinces.filter (fun pr => pr.countryId == id))
    .ok { id := r.id, name := r.name, total := r.total, newCase := r.newCase,
          treated := r.treated, decoveringCase := r.decoveringCase,
          testCase := r.testCase, dead := r.dead, negativeTest := r.negativeTest,
          provinces := some (rows.map provinceOfRow), updatedAt := r.updatedAt }

/-- One storage invocation observed by a stub, tagged with the entity
identifier the statement is keyed on. -/
inductive StorageCall where
  | countrySave (id : String)
  | countryUpdate (id : String)
  | provinceUpdate (id : String)
deriving DecidableEq, Repr

/-- HTTP-level outcome of a service handler: 400 with the validation
message, 500 with the generic message, or 200 with the entity. -/
inductive HttpOutcome (α : Type) where
  | badRequest (msg : String)
  | internalError (msg : String)
  | ok (val : α)
deriving DecidableEq, Repr

/-- True on the 200 outcome. -/
def HttpOutcome.isOk : HttpOutcome α → Bool
  | .ok _ => true
  | _ => false

/-- True on the 400 outcome. -/
def HttpOutcome.isBadRequest : HttpOutcome α → Bool
  | .badRequest _ => true
  | _ => false

/-- The per-province pipeline of the loop in `countryService.Store`
(`src/main.go` lines 183-190): `Prepare` (sanitize), `BeforeSave` (assign
the next UUID), stamp the time, then `Validate`, aborting at the first
invalid province. `k` is the index of the next unconsumed UUID. -/
def storePrepProvinces (ids : Nat → String) (now : Nat) : Nat → List Province → Except String (List Province)
  | _, [] => .ok []
  | k, p :: rest =>
    let p1 := { p with name := sanitizeName p.name, id := ids k, updatedAt := now }
    if p1.name = "" then .error "province: name is required"
    else
      match storePrepProvinces ids now (k + 1) rest with
      | .error e => .error e
      | .ok l => .ok (p1 :: l)

/-- `countryService.Store` (`src/main.go` lines 171-197), after a
successful payload bind: sanitize, assign UUID `ids 0`, stamp, validate
the country; run every province through the same pipeline (UUIDs
`ids 1`, `ids 2`, ...); on full validity call `countryRepo.Save`. The
middle component records every repository invocation. -/
def countryServiceStore (ids : Nat → String) (now : Nat) (o : SaveOracle) (db : DB)
    (c0 : Country) : DB × List StorageCall × HttpOutcome Country :=
  let c1 := { c0 with name := sanitizeName c0.name, id := ids 0, updatedAt := now }
  if c1.name = "" then (db, [], .badRequest "country: name is required")
  else
    match storePrepProvinces ids now 1 (provList c0.provinces) with
    | .error e => (db, [], .badRequest e)
    | .ok ps =>
      let c2 := { c1 with provinces := c0.provinces.map (fun _ => ps) }
      match countryRepoSave o db c2 with
      | (db1, some _) => (db1, [.countrySave c2.id], .internalError "Internal server error")
      | (db1, none) => (db1, [.countrySave c2.id], .ok c2)

/-- The second loop of `countryService.Edit` (`src/main.go` lines
216-222): each province is sanitized and stamped, then
`provinceRepo.Update` is invoked; the first failing update aborts the
loop with a 500. `po i` is the injected server-side outcome of the
update of the province at position `i`. -/
def countryEditLoop (now : Nat) (po : Nat → Option String) :
    Nat → DB → List Province → DB × List StorageCall × Option String
  | _, db, [] => (db, [], none)
  | i, db, p :: rest =>
    let p1 := { p with name := sanitizeName p.name, updatedAt := now }
    match provinceRepoUpdate (po i) db p1 with
    | (db1, some e) => (db1, [.provinceUpdate p1.id], some e)
    | (db1, none) =>
      let r := countryEditLoop now po (i + 1) db1 rest
      (r.1, .provinceUpdate p1.id :: r.2.1, r.2.2)

/-- `countryService.Edit` (`src/main.go` lines 199-229), after a
successful payload bind: sanitize and stamp the country (the identifier
is taken from the payload, `BeforeSave` is never called), validate it,
then validate every province — note the source validates the provinces
BEFORE sanitizing them — then update each province individually and
finally the country scalar row. `po` and `co` inject server-side
failures of the province updates and of the country update. -/
def countryServiceEdit (now : Nat) (po : Nat → Option String) (co : Option String)
    (db : DB) (c0 : Country) : DB × List StorageCall × HttpOutcome Country :=
  let c1 := { c0 with name := sanitizeName c0.name, updatedAt := now }
  if c1.name = "" then (db, [], .badRequest "country: name is required")
  else if (provList c0.provinces).any (fun p => p.name == "") then
    (db, [], .badRequest "province: name is required")
  else
    match countryEditLoop now po 0 db (provList c0.provinces) with
    | (db2, calls, some _) =>
      (db2, calls, .internalError "Internal server error, could not update province information")
    | (db2, calls, none) =>
      match countryRepoUpdate co db2 c1 with
      | (db3, some _) => (db3, calls ++ [.countryUpdate c1.id], .internalError "Internal server error")
      | (db3, none) =>
        let prepped := c0.provinces.map
          (List.map (fun p => { p with name := sanitizeName p.name, updatedAt := now }))
        (db3, calls ++ [.countryUpdate c1.id], .ok { c1 with provinces := prepped })

/-- `provinceService.UpdateProvince` (`src/main.go` lines 243-258), after
a successful payload bind: sanitize, stamp, validate, then
`provinceRepo.Update`. -/
def provinceServiceUpdateProvince (now : Nat) (o : Option String) (db : DB)
    (p0 : Province) : DB × List StorageCall × HttpOutcome Province :=
  let p1 := { p0 with name := sanitizeName p0.name, updatedAt := now }
  if p1.name = "" then (db, [], .badRequest "province: name is required")
  else
    match provinceRepoUpdate o db p1 with
    | (db1, some _) =>
      (db1, [.provinceUpdate p1.id],
        .internalError "Internal server error, could not update province information")
    | (db1, none) => (db1, [.provinceUpdate p1.id], .ok p1)

/-! Concrete fixtures used by the evaluation theorems below. -/

/-- An empty store. -/
def emptyDB : DB := { countries := [], provinces := [] }

/-- A stored country row. -/
def thaiRow : CountryRow :=
  { id := "c1", name := "Thailand", total := 10, newCase := 2, treated := 1,
    decoveringCase := 1, testCase := 5, dead := 0, negativeTest := 3, updatedAt := 0 }

/-- A stored province row of `thaiRow`, with `new_case` 9. -/
def oldProvRow : ProvinceRow :=
  { id := "p1", name := "Old", total := 3, newCase := 9, treated := 0,
    decoveringCase := 0, testCase := 0, dead := 0, negativeTest := 0,
    countryId := "c1", updatedAt := 0 }

/-- A store holding `thaiRow` with its one province. -/
def demoDB : DB := { countries := [thaiRow], provinces := [oldProvRow] }

/-- A store holding `thaiRow` and no province rows. -/
def lonelyDB : DB := { countries := [thaiRow], provinces := [] }

/-- A province payload whose name is three spaces: empty after trimming. -/
def wsProvince : Province :=
  { id := "p1", name := "   ", total := 5, newCase := 1, treated := 1,
    decoveringCase := 0, testCase := 2, dead := 0, negativeTest := 1,
    districts := [], updatedAt := 0 }

/-- An edit payload for `thaiRow` carrying the all-whitespace province. -/
def editWsPayload : Country :=
  { id := "c1", name := "Thailand", total := 11, newCase := 3, treated := 1,
    decoveringCase := 1, testCase := 6, negativeTest := 3, dead := 0,
    provinces := some [wsProvince], updatedAt := 0 }

/-- A valid country payload whose provinces slice is allocated but empty. -/
def laosZero : Country :=
  { id := "c9", name := "Laos", total := 1, newCase := 0, treated := 0,
    decoveringCase := 0, testCase := 0, negativeTest := 0, dead := 0,
    provinces := some [], updatedAt := 0 }

/-- A valid country payload whose provinces slice is nil. -/
def camZero : Country := { laosZero with id := "c8", name := "Cambodia", provinces := none }

/-- C1: the claim is right and the code is wrong. `countryService.Edit`
validates each province BEFORE sanitizing it (`src/main.go` lines
210-214 run `p.Validate()` without a preceding `p.Prepare()`), so a
province whose name is all whitespace passes validation; the second loop
then sanitizes the name to the empty string and the storage layer IS
called (once for the province, once for the country) and the handler
answers 200, persisting a province row with an empty name — instead of
the claimed ValidationError with zero storage calls. -/
theorem edit_whitespace_province_bypasses_validation :
    (countryServiceEdit 1 (fun _ => none) none demoDB editWsPayload).2.2.isOk = true ∧
    (countryServiceEdit 1 (fun _ => none) none demoDB editWsPayload).2.1 =
      [StorageCall.provinceUpdate "p1", StorageCall.countryUpdate "c1"] ∧
    (countryServiceEdit 1 (fun _ => none) none demoDB editWsPayload).1.provinces.map
      ProvinceRow.name = [""] :=
  ⟨rfl, rfl, rfl⟩

/-- C2: the claim is right and the code is wrong. With an empty provinces
collection the squirrel v1.5.0 bulk insert has zero value rows, so its
`ToSql` fails client-side and `countryRepo.Save` returns that error
instead of succeeding; because the Go body shadows `err`, the deferred
closure still commits, so the country row is even persisted alongside
the returned error. -/
theorem save_zero_provinces_is_not_a_noop :
    countryRepoSave saveOk emptyDB laosZero =
      ({ countries := [countryRowOf laosZero], provinces := [] }, some emptyInsertErr) :=
  rfl

/-- C3: the claim is right and the code is wrong. When the province bulk
insert fails (here: client-side, zero value rows) the transaction is NOT
rolled back: the `if _, err := ...` statements shadow the function-level
`err`, so the deferred commit/rollback closure always sees `err == nil`
and commits, persisting the country row while the original error is
returned — partial state, contradicting atomicity. -/
theorem save_failed_bulk_insert_still_commits :
    (countryRepoSave saveOk emptyDB camZero).2 = some emptyInsertErr ∧
    (countryRepoSave saveOk emptyDB camZero).1.countries = [countryRowOf camZero] :=
  ⟨rfl, rfl⟩

/-- C5 counterexample: applying the trim-and-escape transformation twice
differs from applying it once on the spec's own example name, because the
second pass re-escapes the ampersands introduced by the first. -/
theorem sanitize_twice_differs_on_html_name :
    sanitizeName (sanitizeName "  <b>Thai</b>  ") ≠ sanitizeName "  <b>Thai</b>  " := by
  decide

/-- C10: the province repository's `Save` and `Delete` return success for
every input without touching the store, and `GetByID` / `GetAll` return a
nil entity with a nil error for every input. -/
theorem provinceRepo_stubs_are_noops (db : DB) (p : Province) (id : String) :
    provinceRepoSave db p = (db, none) ∧
    provinceRepoDelete db p = (db, none) ∧
    provinceRepoGetByID db id = (none, none) ∧
    provinceRepoGetAll db = (none, none) :=
  ⟨rfl, rfl, rfl, rfl⟩

/-- C9: `provinceRepo.Update` never writes the `new_case` column. For
every store and payload, the update succeeds, leaves the country table
untouched, and rewrites the province table row-by-row so that each row
keeps its `new_case`, `id` and `country_id`, rows keyed by the payload
identifier receive the payload's other scalar columns and timestamp, and
every other row is unchanged. -/
theorem provinceRepoUpdate_never_writes_newCase (db : DB) (p : Province) :
    (provinceRepoUpdate none db p).2 = none ∧
    (provinceRepoUpdate none db p).1.countries = db.countries ∧
    List.Forall₂ (fun r q : ProvinceRow =>
        q.newCase = r.newCase ∧ q.id = r.id ∧ q.countryId = r.countryId ∧
        (r.id = p.id → q.name = p.name ∧ q.total = p.total ∧ q.treated = p.treated ∧
          q.decoveringCase = p.decoveringCase ∧ q.testCase = p.testCase ∧
          q.dead = p.dead ∧ q.negativeTest = p.negativeTest ∧ q.updatedAt = p.updatedAt) ∧
        (r.id ≠ p.id → q = r))
      db.provinces (provinceRepoUpdate none db p).1.provinces := by
  refine ⟨rfl, rfl, ?_⟩
  show List.Forall₂ _ db.provinces (db.provinces.map (provinceUpdateRow p))
  rw [List.forall₂_map_right_iff, List.forall₂_same]
  intro r hr
  by_cases h : r.id = p.id <;> simp [provinceUpdateRow, h]

/-- Witness for C9: the theorem instantiated at the demo store and a
concrete payload whose identifier matches the stored row. -/
theorem provinceRepoUpdate_never_writes_newCase_witness :
    (provinceRepoUpdate none demoDB wsProvince).2 = none ∧
    (provinceRepoUpdate none demoDB wsProvince).1.countries = demoDB.countries ∧
    List.Forall₂ (fun r q : ProvinceRow =>
        q.newCase = r.newCase ∧ q.id = r.id ∧ q.countryId = r.countryId ∧
        (r.id = wsProvince.id → q.name = wsProvince.name ∧ q.total = wsProvince.total ∧
          q.treated = wsProvince.treated ∧ q.decoveringCase = wsProvince.decoveringCase ∧
          q.testCase = wsProvince.testCase ∧ q.dead = wsProvince.dead ∧
          q.negativeTest = wsProvince.negativeTest ∧ q.updatedAt = wsProvince.updatedAt) ∧
        (r.id ≠ wsProvince.id → q = r))
      demoDB.provinces (provinceRepoUpdate none demoDB wsProvince).1.provinces :=
  provinceRepoUpdate_never_writes_newCase demoDB wsProvince

/-- C7: `countryRepo.GetByID` answers the domain-level `errNotFound`
sentinel (never a generic storage error) whenever no country row carries
the requested identifier; and when a row matches but no province row
references it, the fetched country carries an allocated empty provinces
collection (`some []`, never the nil slice `none`). -/
theorem getById_notFound_and_nonnull_empty_provinces (db : DB) (id : String) :
    ((∀ r ∈ db.countries, r.id ≠ id) →
      countryRepoGetByID db id = .error errNotFound) ∧
    (∀ row, db.countries.find? (fun r => r.id == id) = some row →
      (∀ pr ∈ db.provinces, pr.countryId ≠ id) →
      countryRepoGetByID db id =
        .ok { id := row.id, name := row.name, total := row.total, newCase := row.newCase,
              treated := row.treated, decoveringCase := row.decoveringCase,
              testCase := row.testCase, dead := row.dead, negativeTest := row.negativeTest,
              provinces := some [], updatedAt := row.updatedAt }) := by
  constructor
  · intro h
    have hf : db.countries.find? (fun r => r.id == id) = none := by
      rw [List.find?_eq_none]
      intro r hr
      simpa using h r hr
    simp [countryRepoGetByID, hf]
  · intro row hrow hp
    have hfil : db.provinces.filter (fun pr => pr.countryId == id) = [] := by
      rw [List.filter_eq_nil_iff]
      intro a ha
      simpa using hp a ha
    simp [countryRepoGetByID, hrow, hfil]

/-- Witness for C7: a miss on an empty store yields the sentinel, and a
hit with no province rows yields an allocated empty collection. -/
theorem getById_notFound_and_nonnull_empty_provinces_witness :
    countryRepoGetByID emptyDB "zzz" = .error errNotFound ∧
    countryRepoGetByID lonelyDB "c1" =
      .ok { id := "c1", name := "Thailand", total := 10, newCase := 2, treated := 1,
            decoveringCase := 1, testCase := 5, dead := 0, negativeTest := 3,
            provinces := some [], updatedAt := 0 } :=
  ⟨(getById_notFound_and_nonnull_empty_provinces emptyDB "zzz").1 (by decide),
   (getById_notFound_and_nonnull_empty_provinces lonelyDB "c1").2 thaiRow (by decide) (by decide)⟩

/-- True on the five characters `html.EscapeString` expands to entities. -/
def isHtmlMeta (c : Char) : Bool :=
  c.toNat == 38 || c.toNat == 39 || c.toNat == 60 || c.toNat == 62 || c.toNat == 34

/-- A character that is not an HTML metacharacter escapes to itself. -/
theorem escapeChar_eq_self {c : Char} (h : isHtmlMeta c = false) : escapeChar c = [c] := by
  simp only [isHtmlMeta, Bool.or_eq_false_iff, beq_eq_false_iff_ne, ne_eq] at h
  obtain ⟨⟨⟨⟨h1, h2⟩, h3⟩, h4⟩, h5⟩ := h
  simp [escapeChar, h1, h2, h3, h4, h5]

/-- A metacharacter-free character list escapes to itself. -/
theorem escapeChars_eq_self (l : List Char) (h : ∀ c ∈ l, isHtmlMeta c = false) :
    escapeChars l = l := by
  induction l with
  | nil => rfl
  | cons c cs ih =>
    rw [escapeChars, escapeChar_eq_self (h c (by simp)), ih fun d hd => h d (by simp [hd])]
    rfl

/-- Dropping a prefix of matching elements twice is the same as once. -/
theorem dropWhile_idem {α : Type} (p : α → Bool) (l : List α) :
    (l.dropWhile p).dropWhile p = l.dropWhile p := by
  induction l with
  | nil => rfl
  | cons c cs ih =>
    by_cases h : p c
    · simp [List.dropWhile_cons, h, ih]
    · simp [List.dropWhile_cons, h]

/-- A list equal to its own `dropWhile` has a head failing the predicate. -/
theorem head_not_sat_of_dropWhile_eq {α : Type} {p : α → Bool} {l : List α}
    (h : l.dropWhile p = l) : ∀ c cs, l = c :: cs → p c = false := by
  intro c cs hl
  subst hl
  by_contra hp
  rw [Bool.not_eq_false] at hp
  rw [List.dropWhile_cons, if_pos hp] at h
  have hlen := (List.dropWhile_sublist (l := cs) p).length_le
  rw [h] at hlen
  simp at hlen

/-- The result of `dropWhile` is a suffix of its input. -/
theorem dropWhile_isSuffix {α : Type} (p : α → Bool) (l : List α) :
    l.dropWhile p <:+ l := by
  induction l with
  | nil => exact List.suffix_refl _
  | cons c cs ih =>
    by_cases h : p c
    · rw [List.dropWhile_cons, if_pos h]
      exact ih.trans (List.suffix_cons c cs)
    · rw [List.dropWhile_cons, if_neg h]

/-- Trimming a character list twice is the same as trimming it once. -/
theorem trimChars_idem (l : List Char) : trimChars (trimChars l) = trimChars l := by
  unfold trimChars
  have hm : (l.dropWhile goIsSpace).dropWhile goIsSpace = l.dropWhile goIsSpace :=
    dropWhile_idem _ l
  have hA : ((l.dropWhile goIsSpace).reverse.dropWhile goIsSpace).reverse.dropWhile goIsSpace
      = ((l.dropWhile goIsSpace).reverse.dropWhile goIsSpace).reverse := by
    cases ht : ((l.dropWhile goIsSpace).reverse.dropWhile goIsSpace).reverse with
    | nil => rfl
    | cons c cs =>
      have hpre : ((l.dropWhile goIsSpace).reverse.dropWhile goIsSpace).reverse
          <+: l.dropWhile goIsSpace := by
        have hsuf := dropWhile_isSuffix goIsSpace (l.dropWhile goIsSpace).reverse
        have := List.reverse_prefix.mpr hsuf
        rwa [List.reverse_reverse] at this
      rw [ht] at hpre
      obtain ⟨u, hu⟩ := hpre
      have hcons : l.dropWhile goIsSpace = c :: (cs ++ u) := by
        rw [← hu]
        rfl
      have hc : goIsSpace c = false :=
        head_not_sat_of_dropWhile_eq hm c (cs ++ u) hcons
      rw [List.dropWhile_cons, if_neg (by simp [hc])]
  rw [hA]
  rw [List.reverse_reverse, dropWhile_idem]

/-- Trimming a name twice is the same as trimming it once. -/
theorem goTrimSpace_idem (s : String) : goTrimSpace (goTrimSpace s) = goTrimSpace s := by
  unfold goTrimSpace
  rw [show (String.mk (trimChars s.toList)).toList = trimChars s.toList from rfl, trimChars_idem]

/-- C5 (amended): the trim-and-escape transformation is idempotent exactly
on the names it leaves free of work for the escaping pass — whenever the
trimmed name contains no HTML metacharacter, applying `Sanitize` twice
equals applying it once (leading/trailing whitespace is allowed); on a
name containing a metacharacter the second pass re-escapes the ampersands
of the entities introduced by the first, so full idempotence fails. -/
theorem sanitizeName_idempotent_of_plain (s : String)
    (h : ∀ c ∈ (goTrimSpace s).toList, isHtmlMeta c = false) :
    sanitizeName (sanitizeName s) = sanitizeName s := by
  have he : htmlEscapeString (goTrimSpace s) = goTrimSpace s := by
    unfold htmlEscapeString
    rw [escapeChars_eq_self _ h]
    rfl
  show htmlEscapeString (goTrimSpace (htmlEscapeString (goTrimSpace s)))
      = htmlEscapeString (goTrimSpace s)
  rw [he, goTrimSpace_idem]
  exact he

/-- Witness for the amended C5: a name with leading and trailing
whitespace and no metacharacters is sanitized idempotently. -/
theorem sanitizeName_idempotent_of_plain_witness :
    sanitizeName (sanitizeName "  Thai Land  ") = sanitizeName "  Thai Land  " :=
  sanitizeName_idempotent_of_plain "  Thai Land  " (by decide)

/-- The provinces produced by the validation-free part of the `Store`
pipeline: sanitized name, freshly assigned UUID, stamped time. -/
def prepProvs (ids : Nat → String) (now : Nat) : Nat → List Province → List Province
  | _, [] => []
  | k, p :: rest =>
    { p with name := sanitizeName p.name, id := ids k, updatedAt := now } ::
      prepProvs ids now (k + 1) rest

/-- When every province name survives sanitization, the `Store` province
loop succeeds and returns the prepared provinces. -/
theorem storePrepProvinces_ok (ids : Nat → String) (now : Nat) :
    ∀ (l : List Province) (k : Nat), (∀ p ∈ l, sanitizeName p.name ≠ "") →
      storePrepProvinces ids now k l = .ok (prepProvs ids now k l) := by
  intro l
  induction l with
  | nil => intro k h; rfl
  | cons p rest ih =>
    intro k h
    rw [storePrepProvinces, prepProvs]
    rw [if_neg (by simpa using h p (by simp))]
    rw [ih (k + 1) fun q hq => h q (by simp [hq])]

/-- The persisted scalar projection of a province: name and the seven
counters (the columns that survive a save/fetch round trip unchanged). -/
def provinceScalars (p : Province) : String × Int × Int × Int × Int × Int × Int × Int :=
  (p.name, p.total, p.newCase, p.treated, p.decoveringCase, p.testCase, p.dead, p.negativeTest)

/-- The edit loop of `countryService.Edit` only ever writes the province
table: the country table is untouched whatever the oracle says. -/
theorem countryEditLoop_countries (now : Nat) (po : Nat → Option String) :
    ∀ (ps : List Province) (i : Nat) (db : DB),
      (countryEditLoop now po i db ps).1.countries = db.countries := by
  intro ps
  induction ps with
  | nil => intro i db; rfl
  | cons p rest ih =>
    intro i db
    cases hpo : po i with
    | some e => simp [countryEditLoop, provinceRepoUpdate, hpo]
    | none => simp [countryEditLoop, provinceRepoUpdate, hpo, ih]

/-- With healthy storage the edit loop reports no error. -/
theorem countryEditLoop_ok (now : Nat) :
    ∀ (ps : List Province) (i : Nat) (db : DB),
      (countryEditLoop now (fun _ => none) i db ps).2.2 = none := by
  intro ps
  induction ps with
  | nil => intro i db; rfl
  | cons p rest ih => intro i db; simp [countryEditLoop, provinceRepoUpdate, ih]

/-- C6: `EditCountry` never regenerates the country identifier. The edit
pipeline contains no identifier generation at all (unlike `Store` it
consumes no UUIDs): for every valid payload and healthy storage, the
handler answers 200 with a country carrying the payload's identifier, and
the country table is rewritten so that the row keyed by that same
identifier receives only the mutable scalar columns and the timestamp
(its `id` column is untouched), every other row is unchanged, and the
stored identifiers are exactly what they were. -/
theorem edit_preserves_identifier (now : Nat) (db : DB) (c0 : Country)
    (hname : sanitizeName c0.name ≠ "")
    (hps : ∀ p ∈ provList c0.provinces, p.name ≠ "") :
    ∃ db1 calls c1,
      countryServiceEdit now (fun _ => none) none db c0 = (db1, calls, .ok c1) ∧
      c1.id = c0.id ∧
      db1.countries = db.countries.map (fun r =>
        if r.id = c0.id then { r with name := sanitizeName c0.name, total := c0.total, newCase := c0.newCase, treated := c0.treated, decoveringCase := c0.decoveringCase, testCase := c0.testCase, dead := c0.dead, negativeTest := c0.negativeTest, updatedAt := now } else r) ∧
      db1.countries.map CountryRow.id = db.countries.map CountryRow.id := by
  have hval : ((provList c0.provinces).any (fun p => p.name == "")) = false := by
    rw [List.any_eq_false]
    intro p hp
    simpa using hps p hp
  rcases hloop : countryEditLoop now (fun _ => none) 0 db (provList c0.provinces)
    with ⟨db2, calls2, err2⟩
  have herr : err2 = none := by
    have h := countryEditLoop_ok now (provList c0.provinces) 0 db
    rw [hloop] at h
    exact h
  subst herr
  have hctr : db2.countries = db.countries := by
    have h := countryEditLoop_countries now (fun _ => none) (provList c0.provinces) 0 db
    rw [hloop] at h
    exact h
  refine ⟨{ countries := db2.countries.map (fun r => if r.id = c0.id then { r with name := sanitizeName c0.name, total := c0.total, newCase := c0.newCase, treated := c0.treated, decoveringCase := c0.decoveringCase, testCase := c0.testCase, dead := c0.dead, negativeTest := c0.negativeTest, updatedAt := now } else r), provinces := db2.provinces },
         calls2 ++ [StorageCall.countryUpdate c0.id],
         { c0 with name := sanitizeName c0.name, updatedAt := now, provinces := c0.provinces.map (List.map (fun p => { p with name := sanitizeName p.name, updatedAt := now })) },
         ?_, rfl, ?_, ?_⟩
  · simp only [countryServiceEdit, countryRepoUpdate]
    rw [if_neg hname, if_neg (by simp [hval]), hloop]
    rfl
  · rw [hctr]
  · rw [hctr, List.map_map]
    refine List.map_congr_left ?_
    intro r hr
    by_cases h : r.id = c0.id <;> simp [Function.comp, h]

/-- A valid edit payload with one non-empty-named province. -/
def editOkPayload : Country :=
  { editWsPayload with provinces := some [{ wsProvince with name := "Vientiane" }] }

/-- Witness for C6: the theorem instantiated at the demo store. -/
theorem edit_preserves_identifier_witness :
    ∃ db1 calls c1,
      countryServiceEdit 1 (fun _ => none) none demoDB editOkPayload = (db1, calls, .ok c1) ∧
      c1.id = editOkPayload.id ∧
      db1.countries = demoDB.countries.map (fun r =>
        if r.id = editOkPayload.id then { r with name := sanitizeName editOkPayload.name, total := editOkPayload.total, newCase := editOkPayload.newCase, treated := editOkPayload.treated, decoveringCase := editOkPayload.decoveringCase, testCase := editOkPayload.testCase, dead := editOkPayload.dead, negativeTest := editOkPayload.negativeTest, updatedAt := 1 } else r) ∧
      db1.countries.map CountryRow.id = demoDB.countries.map CountryRow.id :=
  edit_preserves_identifier 1 demoDB editOkPayload (by decide) (by decide)

/-- When the province-update oracle first fails at position `i` (counting
from offset `k`), the edit loop stops there: it applies the updates of
the first `i` provinces, records the calls up to and including the
failing one, and reports the error, never touching the country table. -/
theorem countryEditLoop_failure (now : Nat) (po : Nat → Option String) (e : String) :
    ∀ (ps : List Province) (i k : Nat) (db : DB),
      (∀ j, j < i → po (k + j) = none) → po (k + i) = some e → i < ps.length →
      countryEditLoop now po k db ps =
        ({ countries := db.countries, provinces := ((ps.take i).map (fun p => { p with name := sanitizeName p.name, updatedAt := now })).foldl (fun rows q => rows.map (provinceUpdateRow q)) db.provinces },
         ((ps.take (i + 1)).map fun p => StorageCall.provinceUpdate p.id),
         some e) := by
  intro ps
  induction ps with
  | nil =>
    intro i k db h1 h2 hi
    exact absurd hi (by simp)
  | cons p rest ih =>
    intro i k db h1 h2 hi
    cases i with
    | zero =>
      have hpk : po k = some e := by simpa using h2
      simp [countryEditLoop, provinceRepoUpdate, hpk]
    | succ n =>
      have hpk : po k = none := by simpa using h1 0 (Nat.succ_pos n)
      have h1a : ∀ j, j < n → po (k + 1 + j) = none := by
        intro j hj
        have h := h1 (j + 1) (by omega)
        rwa [show k + (j + 1) = k + 1 + j by omega] at h
      have h2a : po (k + 1 + n) = some e := by
        rwa [show k + 1 + n = k + (n + 1) by omega]
      have hrec := ih n (k + 1)
        { countries := db.countries, provinces := db.provinces.map (provinceUpdateRow { p with name := sanitizeName p.name, updatedAt := now }) }
        h1a h2a (by simpa using hi)
      simp [countryEditLoop, provinceRepoUpdate, hpk, hrec]

/-- C8: in `EditCountry`, when the update of the province at position `i`
fails, the operation stops with a 500: the storage-call trace covers
exactly the first `i + 1` provinces, the updates already applied for the
provinces before position `i` remain persisted (they are NOT rolled
back), and the country table — hence the country row — is untouched. -/
theorem edit_midsequence_failure_keeps_prior_updates (now : Nat) (po : Nat → Option String)
    (co : Option String) (db : DB) (c0 : Country) (i : Nat) (e : String)
    (hname : sanitizeName c0.name ≠ "")
    (hps : ∀ p ∈ provList c0.provinces, p.name ≠ "")
    (h1 : ∀ j, j < i → po j = none) (h2 : po i = some e)
    (hi : i < (provList c0.provinces).length) :
    countryServiceEdit now po co db c0 =
      ({ countries := db.countries, provinces := (((provList c0.provinces).take i).map (fun p => { p with name := sanitizeName p.name, updatedAt := now })).foldl (fun rows q => rows.map (provinceUpdateRow q)) db.provinces },
       (((provList c0.provinces).take (i + 1)).map fun p => StorageCall.provinceUpdate p.id),
       .internalError "Internal server error, could not update province information") := by
  have hval : ((provList c0.provinces).any (fun p => p.name == "")) = false := by
    rw [List.any_eq_false]
    intro p hp
    simpa using hps p hp
  have hloop := countryEditLoop_failure now po e (provList c0.provinces) i 0 db
    (by intro j hj; simpa using h1 j hj) (by simpa using h2) hi
  simp only [countryServiceEdit]
  rw [if_neg hname, if_neg (by simp [hval]), hloop]

/-- A province payload with a non-empty name and identifier p1. -/
def vteProvince : Province := { wsProvince with id := "p1", name := "Vientiane" }

/-- A province payload with a non-empty name and identifier p2. -/
def svkProvince : Province := { wsProvince with id := "p2", name := "Savannakhet" }

/-- An edit payload carrying two valid provinces. -/
def editTwoPayload : Country := { editWsPayload with provinces := some [vteProvince, svkProvince] }

/-- An oracle whose first province update succeeds and second fails. -/
def failSecond : Nat → Option String := fun j => if j = 0 then none else some "boom"

/-- Witness for C8: editing with two provinces where the second update
fails keeps the first province's update and leaves the country table
unchanged. -/
theorem edit_midsequence_failure_keeps_prior_updates_witness :
    countryServiceEdit 1 failSecond none demoDB editTwoPayload =
      ({ countries := demoDB.countries, provinces := (((provList editTwoPayload.provinces).take 1).map (fun p => { p with name := sanitizeName p.name, updatedAt := 1 })).foldl (fun rows q => rows.map (provinceUpdateRow q)) demoDB.provinces },
       (((provList editTwoPayload.provinces).take 2).map fun p => StorageCall.provinceUpdate p.id),
       .internalError "Internal server error, could not update province information") :=
  edit_midsequence_failure_keeps_prior_updates 1 failSecond none demoDB editTwoPayload 1 "boom"
    (by decide) (by decide)
    (by intro j hj; simp [failSecond, Nat.lt_one_iff.mp hj]) rfl (by decide)

/-- C4 counterexample: for a perfectly valid payload with zero provinces,
`CreateCountry` does not return a country at all — the save fails on the
empty bulk insert and the handler answers 500 — so the claimed
create-then-fetch round trip fails for the zero-province case. -/
theorem create_zero_provinces_yields_internal_error :
    (countryServiceStore (fun n => toString n) 1 saveOk emptyDB laosZero).2.2 =
      HttpOutcome.internalError "Internal server error" :=
  rfl

/-- C4 (amended): for every valid country payload with ONE OR MORE valid
provinces, and fresh generated identifiers, `CreateCountry` answers 200
with the persisted country, and `GetCountryByID` on its identifier
returns a country with the same name, the same seven scalar counters,
and provinces whose persisted scalar projections are a permutation of
the created ones, ordered by descending total case count. -/
theorem create_then_get_roundtrip (ids : Nat → String) (now : Nat) (db : DB) (c0 : Country)
    (hname : sanitizeName c0.name ≠ "")
    (hprov : ∀ p ∈ provList c0.provinces, sanitizeName p.name ≠ "")
    (hne : provList c0.provinces ≠ [])
    (hfreshC : ∀ r ∈ db.countries, r.id ≠ ids 0)
    (hfreshP : ∀ pr ∈ db.provinces, pr.countryId ≠ ids 0) :
    ∃ db1 c1 ct,
      countryServiceStore ids now saveOk db c0 =
        (db1, [StorageCall.countrySave (ids 0)], .ok c1) ∧
      c1.id = ids 0 ∧
      countryRepoGetByID db1 c1.id = .ok ct ∧
      ct.name = c1.name ∧ ct.total = c1.total ∧ ct.newCase = c1.newCase ∧
      ct.treated = c1.treated ∧ ct.decoveringCase = c1.decoveringCase ∧
      ct.testCase = c1.testCase ∧ ct.dead = c1.dead ∧ ct.negativeTest = c1.negativeTest ∧
      List.Perm ((provList ct.provinces).map provinceScalars)
        ((provList c1.provinces).map provinceScalars) ∧
      List.Pairwise (fun p q : Province => q.total ≤ p.total) (provList ct.provinces) := by
  obtain ⟨cid, cname, cT, cNC, cTr, cDC, cTC, cNT, cD, cprov, cU⟩ := c0
  simp only at hname hprov hne
  obtain ⟨l0, hc0⟩ : ∃ l0, cprov = some l0 := by
    cases h : cprov with
    | none => rw [h] at hne; exact absurd rfl hne
    | some l => exact ⟨l, rfl⟩
  subst hc0
  simp only [provList] at hprov hne
  obtain ⟨q, l0t, hq⟩ : ∃ q l0t, l0 = q :: l0t := by
    cases l0 with
    | nil => exact absurd rfl hne
    | cons q t => exact ⟨q, t, rfl⟩
  subst hq
  have hprep : storePrepProvinces ids now 1 (q :: l0t) = .ok (prepProvs ids now 1 (q :: l0t)) :=
    storePrepProvinces_ok ids now (q :: l0t) 1 hprov
  have hstore : countryServiceStore ids now saveOk db
      ⟨cid, cname, cT, cNC, cTr, cDC, cTC, cNT, cD, some (q :: l0t), cU⟩ =
      ({ countries := db.countries ++ [countryRowOf ⟨ids 0, sanitizeName cname, cT, cNC, cTr, cDC, cTC, cNT, cD, some (prepProvs ids now 1 (q :: l0t)), now⟩], provinces := db.provinces ++ (prepProvs ids now 1 (q :: l0t)).map (provinceRowOf (ids 0)) },
       [StorageCall.countrySave (ids 0)],
       .ok ⟨ids 0, sanitizeName cname, cT, cNC, cTr, cDC, cTC, cNT, cD, some (prepProvs ids now 1 (q :: l0t)), now⟩) := by
    simp only [countryServiceStore, provList]
    rw [if_neg hname, hprep]
    rfl
  have hfind : (db.countries ++ [countryRowOf ⟨ids 0, sanitizeName cname, cT, cNC, cTr, cDC, cTC, cNT, cD, some (prepProvs ids now 1 (q :: l0t)), now⟩]).find? (fun r => r.id == ids 0) = some (countryRowOf ⟨ids 0, sanitizeName cname, cT, cNC, cTr, cDC, cTC, cNT, cD, some (prepProvs ids now 1 (q :: l0t)), now⟩) := by
    rw [List.find?_append]
    have h1 : db.countries.find? (fun r => r.id == ids 0) = none := by
      rw [List.find?_eq_none]
      intro r hr
      simpa using hfreshC r hr
    rw [h1]
    simp [countryRowOf]
  have hfil : (db.provinces ++ (prepProvs ids now 1 (q :: l0t)).map (provinceRowOf (ids 0))).filter (fun pr => pr.countryId == ids 0) = (prepProvs ids now 1 (q :: l0t)).map (provinceRowOf (ids 0)) := by
    rw [List.filter_append]
    have h1 : db.provinces.filter (fun pr => pr.countryId == ids 0) = [] := by
      rw [List.filter_eq_nil_iff]
      intro a ha
      simpa using hfreshP a ha
    have h2 : ((prepProvs ids now 1 (q :: l0t)).map (provinceRowOf (ids 0))).filter (fun pr => pr.countryId == ids 0) = (prepProvs ids now 1 (q :: l0t)).map (provinceRowOf (ids 0)) := by
      rw [List.filter_eq_self]
      intro a ha
      obtain ⟨p, hp, rfl⟩ := List.mem_map.mp ha
      simp [provinceRowOf]
    rw [h1, h2, List.nil_append]
  have hget : countryRepoGetByID { countries := db.countries ++ [countryRowOf ⟨ids 0, sanitizeName cname, cT, cNC, cTr, cDC, cTC, cNT, cD, some (prepProvs ids now 1 (q :: l0t)), now⟩], provinces := db.provinces ++ (prepProvs ids now 1 (q :: l0t)).map (provinceRowOf (ids 0)) } (ids 0) =
      .ok ⟨ids 0, sanitizeName cname, cT, cNC, cTr, cDC, cTC, cNT, cD, some ((List.insertionSort byTotalDesc ((prepProvs ids now 1 (q :: l0t)).map (provinceRowOf (ids 0)))).map provinceOfRow), now⟩ := by
    simp only [countryRepoGetByID]
    rw [hfind, hfil]
    rfl
  refine ⟨_, _, _, hstore, rfl, hget, rfl, rfl, rfl, rfl, rfl, rfl, rfl, rfl, ?_, ?_⟩
  · show ((List.insertionSort byTotalDesc ((prepProvs ids now 1 (q :: l0t)).map (provinceRowOf (ids 0)))).map provinceOfRow).map provinceScalars |>.Perm ((prepProvs ids now 1 (q :: l0t)).map provinceScalars)
    rw [List.map_map]
    refine ((List.perm_insertionSort byTotalDesc _).map (provinceScalars ∘ provinceOfRow)).trans ?_
    rw [List.map_map]
    exact List.Perm.refl _
  · exact List.Pairwise.map provinceOfRow (fun a b h => h)
      (List.sorted_insertionSort byTotalDesc ((prepProvs ids now 1 (q :: l0t)).map (provinceRowOf (ids 0))))

/-- A Bangkok province payload with total 100. -/
def bkkProvince : Province :=
  { id := "", name := "Bangkok", total := 100, newCase := 1, treated := 2,
    decoveringCase := 3, testCase := 4, dead := 5, negativeTest := 6,
    districts := [], updatedAt := 0 }

/-- A Chiang Mai province payload with total 50. -/
def cnxProvince : Province := { bkkProvince with name := "Chiang Mai", total := 50 }

/-- A valid create payload: Thailand with two provinces listed in
ascending total order (so the fetch must reorder them). -/
def createPayload : Country :=
  { id := "", name := "Thailand", total := 150, newCase := 1, treated := 2,
    decoveringCase := 3, testCase := 4, negativeTest := 6, dead := 5,
    provinces := some [cnxProvince, bkkProvince], updatedAt := 0 }

/-- A deterministic UUID supply for the witness. -/
def uIds : Nat → String := fun n => String.append "u" (toString n)

/-- Witness for the amended C4: creating Thailand with Chiang Mai (50)
and Bangkok (100) and fetching it back round-trips the scalars and
returns the provinces by descending total. -/
theorem create_then_get_roundtrip_witness :
    ∃ db1 c1 ct,
      countryServiceStore uIds 7 saveOk emptyDB createPayload =
        (db1, [StorageCall.countrySave (uIds 0)], .ok c1) ∧
      c1.id = uIds 0 ∧
      countryRepoGetByID db1 c1.id = .ok ct ∧
      ct.name = c1.name ∧ ct.total = c1.total ∧ ct.newCase = c1.newCase ∧
      ct.treated = c1.treated ∧ ct.decoveringCase = c1.decoveringCase ∧
      ct.testCase = c1.testCase ∧ ct.dead = c1.dead ∧ ct.negativeTest = c1.negativeTest ∧
      List.Perm ((provList ct.provinces).map provinceScalars)
        ((provList c1.provinces).map provinceScalars) ∧
      List.Pairwise (fun p q : Province => q.total ≤ p.total) (provList ct.provinces) :=
  create_then_get_roundtrip uIds 7 emptyDB createPayload
    (by decide) (by decide) (by decide) (by decide) (by decide)
